import Mathlib

/-!
# E-Commerce Sales Data Analysis — verification of the cleaning/transform pipeline

Shallow embedding of the repository's data pipeline:

* `clean_sales_data` (clean.py): missing-value imputation, whole-row
  deduplication, type coercion, total_amount consistency repair,
  negative-value filtering, text trimming, calendar derivation.
* `transform_sales_data` fragments (transform.py): product summary
  aggregation, revenue/quantity segment binning (`pd.cut`), global
  summary statistics (`idxmax` over grouped sums).
* `DataService` / Flask routes (app.py): top-N products query with the
  SQLite `LIMIT` semantics, overall-stats endpoint error handling.

Money and prices are embedded as float cells `Option Rat` (`some q` an
exact rational, `none` IEEE NaN, which `astype(float)` and arithmetic
propagate and every comparison treats as false), quantities as integers,
dates as explicit year/month/day records.
-/

/-! ## Generic list utilities used by the embedding -/

/-- Keep-first deduplication: retains the first occurrence of every value,
in order.  Models `DataFrame.drop_duplicates()` (exact duplicates across
all columns). -/
def dedupKeepFirst {α : Type} [DecidableEq α] : List α → List α
  | [] => []
  | x :: xs => x :: (dedupKeepFirst xs).filter (fun y => y ≠ x)

/-- Insert into a list sorted by the boolean relation `le`. -/
def insertLe {α : Type} (le : α → α → Bool) (x : α) : List α → List α
  | [] => [x]
  | y :: ys => if le x y then x :: y :: ys else y :: insertLe le x ys

/-- Insertion sort by the boolean relation `le`. -/
def sortLe {α : Type} (le : α → α → Bool) (l : List α) : List α :=
  l.foldr (insertLe le) []

/-- Boolean `≤` on strings (lexicographic). -/
def strLe (a b : String) : Bool := decide (a ≤ b)

/-- Boolean `≤` on rationals. -/
def ratLe (a b : Rat) : Bool := decide (a ≤ b)

/-- Median of a list of rationals, as pandas computes it over the
non-missing values: sort, take the middle element (odd length) or the
mean of the two middle elements (even length). -/
def medianRat (xs : List Rat) : Rat :=
  let s := sortLe ratLe xs
  let n := s.length
  if n % 2 = 1 then s.getD (n / 2) 0
  else (s.getD (n / 2 - 1) 0 + s.getD (n / 2) 0) / 2

/-- Most frequent value of a list; ties resolved to the smallest value,
as `Series.mode()[0]` does (mode returns the sorted list of modal
values).  `none` when the list is empty. -/
def modeBy {α : Type} [DecidableEq α] (le : α → α → Bool) (xs : List α) : Option α :=
  (sortLe le (dedupKeepFirst xs)).foldl
    (fun acc c =>
      match acc with
      | none => some c
      | some b => if xs.count b < xs.count c then some c else acc)
    none

/-! ## Data model (clean.py) -/

/-- A calendar date, the result of `pd.to_datetime` on `order_date`. -/
structure Date where
  year : Nat
  month : Nat
  day : Nat
deriving DecidableEq, Repr

/-- Boolean chronological `≤` on dates. -/
def dateLe (a b : Date) : Bool :=
  decide (a.year * 10000 + a.month * 100 + a.day ≤ b.year * 10000 + b.month * 100 + b.day)

/-- A raw CSV row as read by `pd.read_csv(input_file)` in clean.py.
`none` models a missing (NaN) cell; numeric cells are rationals before
`astype` coercion. -/
structure RawRow where
  order_id : String
  product_name : Option String
  category : Option String
  quantity : Option Rat
  unit_price : Option Rat
  total_amount : Option Rat
  customer_id : Option String
  order_date : Option Date
  region : Option String
deriving DecidableEq, Repr

/-- Float-cell multiplication: NaN propagates. -/
def fpMul : Option Rat → Option Rat → Option Rat
  | none, _ => none
  | some _, none => none
  | some x, some y => some (x * y)

/-- Float-cell subtraction: NaN propagates. -/
def fpSub : Option Rat → Option Rat → Option Rat
  | none, _ => none
  | some _, none => none
  | some x, some y => some (x - y)

/-- Float-cell absolute value: NaN propagates. -/
def fpAbs : Option Rat → Option Rat
  | none => none
  | some x => some |x|

/-- Float `<`: every comparison involving NaN is false. -/
def fpLt : Option Rat → Option Rat → Bool
  | none, _ => false
  | some _, none => false
  | some x, some y => decide (x < y)

/-- Float `≤`: every comparison involving NaN is false. -/
def fpLe : Option Rat → Option Rat → Bool
  | none, _ => false
  | some _, none => false
  | some x, some y => decide (x ≤ y)

/-- A typed row after `astype` coercion (clean.py lines 64-67):
quantity an integer, unit_price and total_amount float cells — `none` is
a NaN kept by `astype(float)` when the whole input column was missing
and imputation had no median to fill with — order_date a date. -/
structure TypedRow where
  order_id : String
  product_name : String
  category : String
  quantity : Int
  unit_price : Option Rat
  total_amount : Option Rat
  customer_id : String
  order_date : Date
  region : String
deriving DecidableEq, Repr

/-- A cleaned row: typed row plus the derived calendar columns added at
the end of clean.py (lines 93-94).  `month_year` is determined by
(year, month) and is not modeled separately. -/
structure CleanRow extends TypedRow where
  month : Nat
  year : Nat
deriving DecidableEq, Repr

/-! ## Record Cleaner (clean.py, `clean_sales_data`) -/

/-- Fill one numeric cell: missing values get the column median of the
non-missing values; a column with no non-missing value keeps NaN
(pandas `fillna` with a NaN median is a no-op). -/
def fillNumCol (present : List Rat) (v : Option Rat) : Option Rat :=
  match v with
  | some x => some x
  | none => if present.isEmpty then none else some (medianRat present)

/-- Fill one text cell: missing values get the column mode (smallest on
ties), or the literal "Unknown" when every value is missing. -/
def fillTextCol (present : List String) (v : Option String) : Option String :=
  match v with
  | some x => some x
  | none => some ((modeBy strLe present).getD "Unknown")

/-- Fill one date cell (order_date is a text column at imputation time;
mode fill, "Unknown" is unparseable so an all-missing date column stays
missing and fails coercion downstream). -/
def fillDateCol (present : List Date) (v : Option Date) : Option Date :=
  match v with
  | some x => some x
  | none => modeBy dateLe present

/-- Missing-value imputation (clean.py lines 38-54): numeric columns are
median-filled, text columns mode-filled. -/
def imputeAll (rs : List RawRow) : List RawRow :=
  let qs := rs.filterMap RawRow.quantity
  let ups := rs.filterMap RawRow.unit_price
  let tas := rs.filterMap RawRow.total_amount
  let pns := rs.filterMap RawRow.product_name
  let cats := rs.filterMap RawRow.category
  let cids := rs.filterMap RawRow.customer_id
  let regs := rs.filterMap RawRow.region
  let dates := rs.filterMap RawRow.order_date
  rs.map fun r =>
    { r with
      product_name := fillTextCol pns r.product_name
      category := fillTextCol cats r.category
      quantity := fillNumCol qs r.quantity
      unit_price := fillNumCol ups r.unit_price
      total_amount := fillNumCol tas r.total_amount
      customer_id := fillTextCol cids r.customer_id
      order_date := fillDateCol dates r.order_date
      region := fillTextCol regs r.region }

/-- Truncation toward zero, the effect of `astype(int)` on a float. -/
def ratTrunc (q : Rat) : Int :=
  if q < 0 then -(((-q).num.toNat / (-q).den : Nat) : Int)
  else ((q.num.toNat / q.den : Nat) : Int)

/-- Type coercion of one row (clean.py lines 64-67).  `astype(int)` on a
NaN quantity raises, so a quantity still missing after imputation is
fatal for the batch, while `astype(float)` propagates NaN: unit_price
and total_amount pass through unchanged, `none` included.  A missing
order_date is modelled as fatal (`pd.to_datetime` would yield NaT, whose
propagation into the derived calendar columns no claim exercises), and
text cells are always filled by imputation. -/
def coerceRow (r : RawRow) : Option TypedRow :=
  match r.product_name, r.category, r.quantity,
        r.customer_id, r.order_date, r.region with
  | some pn, some cat, some q, some cid, some od, some reg =>
    some { order_id := r.order_id, product_name := pn, category := cat,
           quantity := ratTrunc q, unit_price := r.unit_price,
           total_amount := r.total_amount,
           customer_id := cid, order_date := od, region := reg }
  | _, _, _, _, _, _ => none

/-- Coerce every row; any failure is fatal for the batch (fail-fast). -/
def coerceAll : List RawRow → Option (List TypedRow)
  | [] => some []
  | r :: rs =>
    match coerceRow r, coerceAll rs with
    | some t, some ts => some (t :: ts)
    | _, _ => none

/-- The recomputed `calculated_total = quantity * unit_price`
(clean.py line 73), NaN-propagating. -/
def calcTotal (r : TypedRow) : Option Rat :=
  fpMul (some ((r.quantity : Rat))) r.unit_price

/-- Consistency repair (clean.py lines 72-78): where
`abs(total_amount - calculated_total) > 0.01`, overwrite total_amount
with the recomputed product.  A NaN on either side makes the comparison
false, so rows with a NaN unit_price or total_amount are never
repaired. -/
def repairRow (r : TypedRow) : TypedRow :=
  if fpLt (some (1/100)) (fpAbs (fpSub r.total_amount (calcTotal r))) then
    { r with total_amount := calcTotal r }
  else r

/-- Negative-value test (clean.py line 81); `NaN < 0` is false, so NaN
cells never mark a row negative. -/
def negRow (r : TypedRow) : Bool :=
  decide (r.quantity < 0) || fpLt r.unit_price (some 0) || fpLt r.total_amount (some 0)

/-- Whitespace characters stripped by `str.strip()`. -/
def isWs (c : Char) : Bool :=
  c = ' ' || c = '\t' || c = '\n' || c = '\r'

/-- Strip leading and trailing whitespace, modelling `Series.str.strip()`. -/
def stripStr (s : String) : String :=
  String.mk (((s.data.dropWhile isWs).reverse.dropWhile isWs).reverse)

/-- Text normalization (clean.py lines 88-90). -/
def trimRow (r : TypedRow) : TypedRow :=
  { r with product_name := stripStr r.product_name,
           category := stripStr r.category,
           region := stripStr r.region }

/-- Calendar derivation (clean.py lines 93-94). -/
def deriveRow (r : TypedRow) : CleanRow :=
  { toTypedRow := r, month := r.order_date.month, year := r.order_date.year }

/-- The whole cleaner `clean_sales_data` (clean.py lines 10-110), as a
function from the parsed raw rows to the cleaned rows; `none` is the
fatal type-coercion failure. Step order follows the source: imputation,
deduplication, coercion, consistency repair, negative filter, trim,
calendar derivation. -/
def clean_sales_data (rs : List RawRow) : Option (List CleanRow) :=
  match coerceAll (dedupKeepFirst (imputeAll rs)) with
  | none => none
  | some ts =>
    some (((((ts.map repairRow).filter (fun r => !negRow r)).map trimRow).map deriveRow))

/-! ## Aggregator/Transformer (transform.py) -/

/-- Sorted distinct group keys, as `DataFrame.groupby` produces them
(`sort=True` is the pandas default: keys ascend lexicographically). -/
def groupKeys (keys : List String) : List String :=
  sortLe strLe (dedupKeepFirst keys)

/-- Round to the nearest integer, ties to even — the rounding used by
`DataFrame.round` (IEEE half-to-even). -/
def roundHalfEven (q : Rat) : Int :=
  if q - ⌊q⌋ < 1/2 then ⌊q⌋
  else if 1/2 < q - ⌊q⌋ then ⌊q⌋ + 1
  else if ⌊q⌋ % 2 = 0 then ⌊q⌋ else ⌊q⌋ + 1

/-- Rounding `round(x, 2)`: round to 2 decimal places, ties to even. -/
def round2 (q : Rat) : Rat := (roundHalfEven (q * 100) : Rat) / 100

/-- One row of the product summary table (transform.py lines 29-40).
avg_unit_price is a float cell: the mean of an all-NaN column is NaN. -/
structure ProductSummaryRow where
  product_name : String
  total_quantity_sold : Int
  total_revenue : Rat
  order_count : Nat
  avg_unit_price : Option Rat
  avg_order_value : Rat
deriving DecidableEq, Repr

/-- The aggregate row `product_summary` computes for one product group
(transform.py lines 31-40): sum(quantity), sum(total_amount),
count(order_id), mean(unit_price), all rounded to 2 decimals, then
avg_order_value = (rounded revenue / order count) rounded to 2 decimals.
pandas `sum` and `mean` skip NaN cells; the sum of an all-NaN column is
0, its mean is NaN, and `.round(2)` keeps NaN. -/
def summaryRowFor (df : List CleanRow) (p : String) : ProductSummaryRow :=
  let g := df.filter (fun r => r.product_name = p)
  let totals := g.filterMap (fun r => r.total_amount)
  let prices := g.filterMap (fun r => r.unit_price)
  let revenue := round2 totals.sum
  { product_name := p
    total_quantity_sold := (g.map (fun r => r.quantity)).sum
    total_revenue := revenue
    order_count := g.length
    avg_unit_price := if prices.isEmpty then none
                      else some (round2 (prices.sum / (prices.length : Rat)))
    avg_order_value := round2 (revenue / (g.length : Rat)) }

/-- The table `product_summary` (transform.py lines 31-40): one aggregate row per
distinct product_name, keys ascending (pandas groupby sorts keys). -/
def product_summary (df : List CleanRow) : List ProductSummaryRow :=
  (groupKeys (df.map (fun r => r.product_name))).map (summaryRowFor df)

/-- Revenue segment (transform.py lines 104-106):
`pd.cut(total_amount, bins=[0, 100, 500, 1000, inf],
labels=['Low','Medium','High','Very High'])`.  `pd.cut` uses right-closed
intervals `(lo, hi]`; a value outside every bin (here: ≤ 0) gets no
label (NaN), modelled as `none`, and a NaN input likewise gets no
label. -/
def revenueSegment : Option Rat → Option String
  | none => none
  | some a =>
    if a ≤ 0 then none
    else if a ≤ 100 then some "Low"
    else if a ≤ 500 then some "Medium"
    else if a ≤ 1000 then some "High"
    else some "Very High"

/-- Quantity segment (transform.py lines 109-111):
`pd.cut(quantity, bins=[0, 1, 3, 5, inf],
labels=['Single','Small','Medium','Large'])`. -/
def quantitySegment (q : Int) : Option String :=
  if q ≤ 0 then none
  else if q ≤ 1 then some "Single"
  else if q ≤ 3 then some "Small"
  else if q ≤ 5 then some "Medium"
  else some "Large"

/-- A transformed row: cleaned row plus quarter and the two segment
labels (transform.py lines 96-111).  day_of_week / is_weekend depend on
weekday data outside this embedding's date model and are not needed by
any claim, so they are not modelled. -/
structure EnrichedRow extends CleanRow where
  quarter : Nat
  revenue_segment : Option String
  quantity_segment : Option String
deriving DecidableEq, Repr

/-- Per-row enrichment performed by `transform_sales_data`. -/
def enrichRow (r : CleanRow) : EnrichedRow :=
  { toCleanRow := r
    quarter := (r.order_date.month - 1) / 3 + 1
    revenue_segment := revenueSegment r.total_amount
    quantity_segment := quantitySegment r.quantity }

/-- First pair attaining the maximal second component.  This is
`Series.idxmax`: the first index (in series order) whose value equals
the maximum. -/
def firstArgmax {β : Type} [LinearOrder β] : List (String × β) → Option (String × β)
  | [] => none
  | x :: xs =>
    match firstArgmax xs with
    | none => some x
    | some b => if x.2 < b.2 then some b else some x

/-- One (key, summed value) entry of a grouped sum; the pandas grouped
`sum` skips NaN cells (the sum of an all-NaN group is 0). -/
def groupEntry (df : List CleanRow) (key : CleanRow → String) (val : CleanRow → Option Rat)
    (k : String) : String × Rat :=
  (k, ((df.filter (fun r => key r = k)).filterMap val).sum)

/-- Grouped sum `df.groupby(key)[val].sum()`: one (key, summed value) pair per
distinct key, keys in ascending order. -/
def groupedSum (df : List CleanRow) (key : CleanRow → String) (val : CleanRow → Option Rat) :
    List (String × Rat) :=
  (groupKeys (df.map key)).map (groupEntry df key val)

/-- The expression `df.groupby(key)[val].sum().idxmax()` (transform.py lines 124-126). -/
def idxmaxBy (df : List CleanRow) (key : CleanRow → String) (val : CleanRow → Option Rat) :
    Option String :=
  (firstArgmax (groupedSum df key val)).map Prod.fst

/-- The statistic `summary_stats['most_popular_product']` (transform.py line 124). -/
def most_popular_product (df : List CleanRow) : Option String :=
  idxmaxBy df (fun r => r.product_name) (fun r => some ((r.quantity : Rat)))

/-- The statistic `summary_stats['most_popular_category']` (transform.py line 125). -/
def most_popular_category (df : List CleanRow) : Option String :=
  idxmaxBy df (fun r => r.category) (fun r => some ((r.quantity : Rat)))

/-- The statistic `summary_stats['top_region']` (transform.py line 126). -/
def top_region (df : List CleanRow) : Option String :=
  idxmaxBy df (fun r => r.region) (fun r => r.total_amount)

/-! ## Metric Query Service (app.py) -/

/-- One result row of the top-products query (app.py lines 158-169).
SQL `SUM`/`AVG` skip NULL cells and return NULL when every input is NULL
(a NaN float is stored as NULL in SQLite), so the two price columns are
float cells. -/
structure TopProductRow where
  product_name : String
  total_revenue : Option Rat
  total_quantity : Int
  order_count : Nat
  avg_unit_price : Option Rat
deriving DecidableEq, Repr

/-- SQL comparison on the revenue column for `ORDER BY ... DESC`: NULL
sorts below every number. -/
def revLt : Option Rat → Option Rat → Bool
  | none, none => false
  | none, some _ => true
  | some _, none => false
  | some x, some y => decide (x < y)

/-- Stable insertion keeping descending total_revenue order. -/
def insertRevDesc (x : TopProductRow) : List TopProductRow → List TopProductRow
  | [] => [x]
  | y :: ys => if revLt y.total_revenue x.total_revenue then x :: y :: ys
               else y :: insertRevDesc x ys

/-- Stable descending sort by total_revenue (`ORDER BY total_revenue DESC`). -/
def sortRevDesc (l : List TopProductRow) : List TopProductRow :=
  l.foldr insertRevDesc []

/-- The un-limited top-products aggregation over the `sales_data` table:
`SELECT product_name, SUM(total_amount), SUM(quantity), COUNT(*),
AVG(unit_price) ... GROUP BY product_name ORDER BY total_revenue DESC`. -/
def topProductsQuery (db : List EnrichedRow) : List TopProductRow :=
  sortRevDesc ((groupKeys (db.map (fun r => r.product_name))).map fun p =>
    let g := db.filter (fun r => r.product_name = p)
    let totals := g.filterMap (fun r => r.total_amount)
    let prices := g.filterMap (fun r => r.unit_price)
    { product_name := p
      total_revenue := if totals.isEmpty then none else some totals.sum
      total_quantity := (g.map (fun r => r.quantity)).sum
      order_count := g.length
      avg_unit_price := if prices.isEmpty then none
                        else some (prices.sum / (prices.length : Rat)) })

/-- SQLite `LIMIT n` semantics: a negative limit means no limit at all;
a non-negative limit returns at most `n` rows. -/
def sqliteLimit {α : Type} (n : Int) (l : List α) : List α :=
  if n < 0 then l else l.take n.toNat

/-- The method `DataService.get_top_products(limit)` (app.py lines 153-178): the
caller-supplied limit is bound directly to the SQL `LIMIT ?`. -/
def get_top_products (db : List EnrichedRow) (limit : Int) : List TopProductRow :=
  sqliteLimit limit (topProductsQuery db)

/-- The `/api/top-products` route (app.py lines 280-295):
`request.args.get('limit', 10, type=int)` yields 10 when the parameter
is absent (or unparseable), otherwise the supplied integer, which is
passed to `get_top_products` unvalidated. -/
def top_products_route (db : List EnrichedRow) (limitParam : Option Int) : List TopProductRow :=
  get_top_products db (limitParam.getD 10)

/-- The overall-stats record built by `DataService.get_overall_stats`
(app.py lines 59-69). -/
structure OverallStats where
  total_revenue : Rat
  total_orders : Nat
  total_quantity : Int
  unique_customers : Nat
  unique_products : Nat
  unique_categories : Nat
  avg_order_value : Rat
  first_order_date : Date
  last_order_date : Date
deriving DecidableEq, Repr

/-- Chronologically earlier of two dates. -/
def dateMin (a b : Date) : Date := if dateLe a b then a else b

/-- Chronologically later of two dates. -/
def dateMax (a b : Date) : Date := if dateLe a b then b else a

/-- State of the SQLite store as the query service sees it: either the
`sales_data` table is unavailable (missing file / missing table /
unreachable store) or it holds the loaded enriched rows. -/
inductive DbState
  | missing
  | table (rows : List EnrichedRow)

/-- The overall-stats SQL query plus the Python-side conversions.  On a
missing table the query itself faults.  On an empty table — or one whose
total_amount cells are all NULL (stored NaN) — SQL `SUM` and `AVG`
return NULL and `float(None)` raises, so the computation faults;
otherwise `SUM`/`AVG` skip the NULL cells. -/
def statsOfRows : List EnrichedRow → Except String OverallStats
  | [] => Except.error "float() argument must not be None"
  | r :: rs =>
    let rows := r :: rs
    let totals := rows.filterMap (fun x => x.total_amount)
    if totals.isEmpty then Except.error "float() argument must not be None"
    else
      Except.ok
        { total_revenue := totals.sum
          total_orders := rows.length
          total_quantity := (rows.map (fun x => x.quantity)).sum
          unique_customers := (dedupKeepFirst (rows.map (fun x => x.customer_id))).length
          unique_products := (dedupKeepFirst (rows.map (fun x => x.product_name))).length
          unique_categories := (dedupKeepFirst (rows.map (fun x => x.category))).length
          avg_order_value := totals.sum / (totals.length : Rat)
          first_order_date := rs.foldl (fun acc x => dateMin acc x.order_date) r.order_date
          last_order_date := rs.foldl (fun acc x => dateMax acc x.order_date) r.order_date }

/-- The fallible part of `DataService.get_overall_stats`. -/
def queryOverallStats : DbState → Except String OverallStats
  | DbState.missing => Except.error "no such table: sales_data"
  | DbState.table rows => statsOfRows rows

/-- The method `DataService.get_overall_stats` (app.py lines 37-73): any internal
fault is caught inside the service, which then returns the empty dict
(`{}`), modelled as `none`. -/
def get_overall_stats (db : DbState) : Option OverallStats :=
  match queryOverallStats db with
  | Except.ok s => some s
  | Except.error _ => none

/-- A JSON response of the query surface. -/
structure ApiResponse (α : Type) where
  success : Bool
  data : Option α
  error : Option String
deriving DecidableEq, Repr

/-- The `try/except` wrapper every route uses: an ok computation becomes
`success=true` with data, a raised fault becomes `success=false` with
the message. -/
def route_wrap {α : Type} (comp : Except String α) : ApiResponse α :=
  match comp with
  | Except.ok v => { success := true, data := some v, error := none }
  | Except.error e => { success := false, data := none, error := some e }

/-- The `/api/stats` route (app.py lines 216-230).  The body calls
`data_service.get_overall_stats()`, which cannot raise because it
catches all faults internally, so the wrapped computation is always
`ok` — including when the underlying query faulted and the service
returned the empty dict. -/
def get_stats_route (db : DbState) : ApiResponse (Option OverallStats) :=
  route_wrap (Except.ok (get_overall_stats db))

/-! ## Basic lemmas: stripping, deduplication -/

theorem dropWhile_eq_self_of_head {α : Type} (p : α → Bool) :
    ∀ l : List α, (∀ c, l.head? = some c → p c = false) → l.dropWhile p = l
  | [], _ => rfl
  | a :: l, h => by
    have ha : p a = false := h a rfl
    simp [List.dropWhile_cons, ha]

theorem head_dropWhile_false {α : Type} (p : α → Bool) :
    ∀ l : List α, ∀ c, (l.dropWhile p).head? = some c → p c = false
  | [], c => by simp
  | a :: l, c => by
    by_cases hpa : p a = true
    · rw [List.dropWhile_cons, if_pos hpa]
      exact head_dropWhile_false p l c
    · rw [List.dropWhile_cons, if_neg hpa]
      intro hc
      obtain rfl : a = c := by simpa using hc
      simpa using hpa

theorem dropWhile_idem {α : Type} (p : α → Bool) (l : List α) :
    (l.dropWhile p).dropWhile p = l.dropWhile p :=
  dropWhile_eq_self_of_head p _ (head_dropWhile_false p l)

theorem getLast?_dropWhile {α : Type} (p : α → Bool) :
    ∀ l : List α, l.dropWhile p ≠ [] → (l.dropWhile p).getLast? = l.getLast?
  | [], h => absurd rfl h
  | a :: l, h => by
    by_cases hpa : p a = true
    · rw [List.dropWhile_cons, if_pos hpa] at h ⊢
      have hl : l ≠ [] := by
        rintro rfl
        exact h rfl
      obtain ⟨b, l', rfl⟩ := List.exists_cons_of_ne_nil hl
      rw [List.getLast?_cons_cons]
      exact getLast?_dropWhile p (b :: l') h
    · rw [List.dropWhile_cons, if_neg hpa]

/-- The trailing-whitespace strip on char lists. -/
def trailStrip (l : List Char) : List Char := (l.reverse.dropWhile isWs).reverse

theorem stripStr_data (s : String) :
    stripStr s = String.mk (trailStrip (s.data.dropWhile isWs)) := rfl

theorem trailStrip_head (l : List Char) :
    ∀ c, (trailStrip l).head? = some c → l.head? = some c := by
  intro c hc
  unfold trailStrip at hc
  rw [List.head?_reverse] at hc
  have hne : l.reverse.dropWhile isWs ≠ [] := by
    intro h0
    rw [h0] at hc
    simp at hc
  rw [getLast?_dropWhile isWs l.reverse hne, List.getLast?_reverse] at hc
  exact hc

theorem dropWhile_trailStrip (l : List Char)
    (h : ∀ c, l.head? = some c → isWs c = false) :
    (trailStrip l).dropWhile isWs = trailStrip l := by
  apply dropWhile_eq_self_of_head
  intro c hc
  exact h c (trailStrip_head l c hc)

theorem trailStrip_idem (l : List Char) : trailStrip (trailStrip l) = trailStrip l := by
  unfold trailStrip
  rw [List.reverse_reverse, dropWhile_idem]

theorem stripStr_idem (s : String) : stripStr (stripStr s) = stripStr s := by
  rw [stripStr_data s, stripStr_data]
  show String.mk (trailStrip ((trailStrip (s.data.dropWhile isWs)).dropWhile isWs)) = _
  rw [dropWhile_trailStrip _ (head_dropWhile_false isWs s.data), trailStrip_idem]

theorem mem_dedupKeepFirst {α : Type} [DecidableEq α] :
    ∀ (l : List α) (a : α), a ∈ dedupKeepFirst l ↔ a ∈ l
  | [], a => Iff.rfl
  | x :: xs, a => by
    simp only [dedupKeepFirst, List.mem_cons, List.mem_filter,
      mem_dedupKeepFirst xs a]
    by_cases hax : a = x
    · simp [hax]
    · simp [hax]

theorem dedupKeepFirst_pairwise {α : Type} [DecidableEq α] :
    ∀ l : List α, (dedupKeepFirst l).Pairwise (fun a b => a ≠ b)
  | [] => List.Pairwise.nil
  | x :: xs => by
    rw [dedupKeepFirst, List.pairwise_cons]
    refine ⟨?_, (dedupKeepFirst_pairwise xs).filter _⟩
    intro b hb
    have : b ≠ x := by
      have := (List.mem_filter.1 hb).2
      simpa using this
    exact fun h => this h.symm

theorem dedupKeepFirst_eq_self {α : Type} [DecidableEq α] :
    ∀ l : List α, l.Pairwise (fun a b => a ≠ b) → dedupKeepFirst l = l
  | [], _ => rfl
  | x :: xs, h => by
    rw [List.pairwise_cons] at h
    rw [dedupKeepFirst, dedupKeepFirst_eq_self xs h.2]
    congr 1
    rw [List.filter_eq_self]
    intro a ha
    simpa using fun hax => (h.1 a ha) hax.symm

theorem dedupKeepFirst_map {α β : Type} [DecidableEq α] [DecidableEq β] (f : α → β) :
    ∀ l : List α, (∀ a ∈ l, ∀ b ∈ l, f a = f b → a = b) →
      dedupKeepFirst (l.map f) = (dedupKeepFirst l).map f
  | [], _ => rfl
  | x :: xs, hinj => by
    have hxs : ∀ a ∈ xs, ∀ b ∈ xs, f a = f b → a = b := fun a ha b hb =>
      hinj a (List.mem_cons_of_mem x ha) b (List.mem_cons_of_mem x hb)
    rw [List.map_cons, dedupKeepFirst, dedupKeepFirst, dedupKeepFirst_map f xs hxs,
      List.filter_map, List.map_cons]
    congr 1
    congr 1
    apply List.filter_congr
    intro a ha
    have haxs : a ∈ xs := (mem_dedupKeepFirst xs a).1 ha
    simp only [Function.comp_apply]
    apply decide_eq_decide.mpr
    constructor
    · intro hfa hax
      exact hfa (by rw [hax])
    · intro hax hfa
      exact hax (hinj a (List.mem_cons_of_mem x haxs) x (List.mem_cons_self x xs) hfa)

/-! ## Invariants of the cleaner's output -/

/-- The bundle of row-level facts guaranteed for every row the cleaner
emits.  The money invariants are conditional on the cells holding actual
numbers: a NaN cell — possible only when the whole input column was
blank — defeats both the repair comparison and the negativity test. -/
def GoodClean (c : CleanRow) : Prop :=
  (∀ up ta, c.unit_price = some up → c.total_amount = some ta →
    |ta - (c.quantity : Rat) * up| ≤ 1/100) ∧
  0 ≤ c.quantity ∧
  (∀ v, c.unit_price = some v → 0 ≤ v) ∧
  (∀ v, c.total_amount = some v → 0 ≤ v) ∧
  stripStr c.product_name = c.product_name ∧
  stripStr c.category = c.category ∧
  stripStr c.region = c.region ∧
  c.month = c.order_date.month ∧ c.year = c.order_date.year

theorem repairRow_unit_price (t : TypedRow) : (repairRow t).unit_price = t.unit_price := by
  unfold repairRow
  split <;> rfl

theorem repairRow_quantity (t : TypedRow) : (repairRow t).quantity = t.quantity := by
  unfold repairRow
  split <;> rfl

theorem repairRow_consistent (t : TypedRow) :
    ∀ up ta, (repairRow t).unit_price = some up → (repairRow t).total_amount = some ta →
      |ta - ((repairRow t).quantity : Rat) * up| ≤ 1/100 := by
  intro up ta hup hta
  rw [repairRow_unit_price] at hup
  rw [repairRow_quantity]
  unfold repairRow at hta
  split at hta
  · have hct : calcTotal t = some ta := hta
    simp only [calcTotal, hup, fpMul] at hct
    obtain rfl : (t.quantity : Rat) * up = ta := by simpa using hct
    rw [sub_self, abs_zero]
    norm_num
  · rename_i hcond
    have hta2 : t.total_amount = some ta := hta
    rw [hta2] at hcond
    simp only [calcTotal, hup, fpMul, fpSub, fpAbs, fpLt, decide_eq_true_eq] at hcond
    exact le_of_not_lt hcond

theorem negRow_false_nonneg {t : TypedRow} (h : negRow t = false) :
    0 ≤ t.quantity ∧ (∀ v, t.unit_price = some v → 0 ≤ v) ∧
      (∀ v, t.total_amount = some v → 0 ≤ v) := by
  unfold negRow at h
  simp only [Bool.or_eq_false_iff, decide_eq_false_iff_not, not_lt] at h
  refine ⟨h.1.1, ?_, ?_⟩
  · intro v hv
    have h2 := h.1.2
    rw [hv] at h2
    simp only [fpLt, decide_eq_false_iff_not, not_lt] at h2
    exact h2
  · intro v hv
    have h2 := h.2
    rw [hv] at h2
    simp only [fpLt, decide_eq_false_iff_not, not_lt] at h2
    exact h2

theorem clean_sales_data_good (rs : List RawRow) (out : List CleanRow)
    (hcl : clean_sales_data rs = some out) : ∀ c ∈ out, GoodClean c := by
  intro c hc
  unfold clean_sales_data at hcl
  cases hts : coerceAll (dedupKeepFirst (imputeAll rs)) with
  | none => rw [hts] at hcl; exact absurd hcl (by simp)
  | some ts =>
    rw [hts] at hcl
    simp only [Option.some_inj] at hcl
    subst hcl
    obtain ⟨u3, hu3, rfl⟩ := List.mem_map.1 hc
    obtain ⟨u2, hu2, rfl⟩ := List.mem_map.1 hu3
    have hfil := List.mem_filter.1 hu2
    obtain ⟨u1, _, rfl⟩ := List.mem_map.1 hfil.1
    have hneg : negRow (repairRow u1) = false := by simpa using hfil.2
    have hcons := repairRow_consistent u1
    have hnn := negRow_false_nonneg hneg
    refine ⟨?_, ?_, ?_, ?_, ?_, ?_, ?_, ?_, ?_⟩
    · intro up ta hup hta
      have hup2 : (repairRow u1).unit_price = some up := by
        simpa [deriveRow, trimRow] using hup
      have hta2 : (repairRow u1).total_amount = some ta := by
        simpa [deriveRow, trimRow] using hta
      simpa [deriveRow, trimRow] using hcons up ta hup2 hta2
    · simpa [deriveRow, trimRow] using hnn.1
    · intro v hv
      exact hnn.2.1 v (by simpa [deriveRow, trimRow] using hv)
    · intro v hv
      exact hnn.2.2 v (by simpa [deriveRow, trimRow] using hv)
    · simp [deriveRow, trimRow, stripStr_idem]
    · simp [deriveRow, trimRow, stripStr_idem]
    · simp [deriveRow, trimRow, stripStr_idem]
    · simp [deriveRow, trimRow]
    · simp [deriveRow, trimRow]

/-! ## Concrete scenario rows -/

/-- Spec scenario: unit_price=10, quantity=5, total_amount=40
(inconsistent). -/
def rawInconsistent : RawRow :=
  { order_id := "O1", product_name := some "Widget", category := some "Toys",
    quantity := some 5, unit_price := some 10, total_amount := some 40,
    customer_id := some "C1", order_date := some ⟨2024, 1, 15⟩,
    region := some "West" }

/-- The repaired row the cleaner produces for `rawInconsistent`. -/
def cleanRepaired : CleanRow :=
  { order_id := "O1", product_name := "Widget", category := "Toys",
    quantity := 5, unit_price := some 10, total_amount := some 50,
    customer_id := "C1", order_date := ⟨2024, 1, 15⟩, region := "West",
    month := 1, year := 2024 }

theorem clean_eval_inconsistent :
    clean_sales_data [rawInconsistent] = some [cleanRepaired] := by
  norm_num [clean_sales_data, imputeAll, fillNumCol, fillTextCol, fillDateCol,
    dedupKeepFirst, coerceAll, coerceRow, repairRow, calcTotal, fpMul, fpSub,
    fpAbs, fpLt, negRow, trimRow, deriveRow,
    stripStr, isWs, ratTrunc, rawInconsistent, cleanRepaired, List.dropWhile, List.filterMap_cons]
  decide

/-- Spec scenario: a row with quantity = −1. -/
def rawNegative : RawRow :=
  { order_id := "O2", product_name := some "Gadget", category := some "Tools",
    quantity := some (-1), unit_price := some 10, total_amount := some (-10),
    customer_id := some "C2", order_date := some ⟨2024, 2, 3⟩,
    region := some "East" }

theorem clean_eval_negative : clean_sales_data [rawNegative] = some [] := by
  norm_num [clean_sales_data, imputeAll, fillNumCol, fillTextCol, fillDateCol,
    dedupKeepFirst, coerceAll, coerceRow, repairRow, calcTotal, fpMul, fpSub,
    fpAbs, fpLt, negRow, trimRow, deriveRow,
    stripStr, isWs, ratTrunc, rawNegative, List.dropWhile, List.filterMap_cons]

/-- A raw row whose unit_price cell is blank; with no other row, the
unit_price column has no non-missing value, so the median fill is a
no-op (the median of an empty set is NaN and `fillna(NaN)` changes
nothing) and `astype(float)` keeps the NaN. -/
def rawNaNPrice : RawRow :=
  { order_id := "N1", product_name := some "Void", category := some "Misc",
    quantity := some 5, unit_price := none, total_amount := some 40,
    customer_id := some "C8", order_date := some ⟨2024, 10, 5⟩,
    region := some "East" }

/-- The cleaned form of `rawNaNPrice`: the NaN unit_price disables the
repair comparison and the negativity test, so the stated total_amount 40
survives unrepaired next to a NaN unit_price. -/
def cleanNaNPrice : CleanRow :=
  { order_id := "N1", product_name := "Void", category := "Misc",
    quantity := 5, unit_price := none, total_amount := some 40,
    customer_id := "C8", order_date := ⟨2024, 10, 5⟩, region := "East",
    month := 10, year := 2024 }

/-- C1 counterexample: on an input whose unit_price column is entirely
blank the cleaner succeeds and emits the row with a NaN unit_price and
its original total_amount 40; the claimed invariant
`|total_amount − quantity × unit_price| ≤ 0.01` is false for that row
under float semantics, where every comparison against NaN is false. -/
theorem clean_nan_price_breaks_invariant :
    clean_sales_data [rawNaNPrice] = some [cleanNaNPrice] ∧
    cleanNaNPrice.unit_price = none ∧
    cleanNaNPrice.total_amount = some 40 ∧
    fpLe (fpAbs (fpSub cleanNaNPrice.total_amount
        (fpMul (some ((cleanNaNPrice.quantity : Rat))) cleanNaNPrice.unit_price)))
      (some (1/100)) = false := by
  refine ⟨?_, rfl, rfl, rfl⟩
  norm_num [clean_sales_data, imputeAll, fillNumCol, fillTextCol, fillDateCol,
    dedupKeepFirst, coerceAll, coerceRow, repairRow, calcTotal, fpMul, fpSub,
    fpAbs, fpLt, negRow, trimRow, deriveRow,
    stripStr, isWs, ratTrunc, rawNaNPrice, cleanNaNPrice, List.dropWhile,
    List.filterMap_cons]
  decide

/-- C1 amended: every cleaned row whose unit_price and total_amount are
actual numbers satisfies the ±0.01 consistency invariant — the repair
step recomputes quantity × unit_price and overwrites any number-valued
total_amount differing by more than 0.01, keeping the row — and the
scenario row (unit_price=10, quantity=5, total_amount=40) comes out with
total_amount=50.  A NaN in either column, possible only when the whole
input column was blank, disables the comparison and flows through, so
the unconditional invariant fails (see the counterexample). -/
theorem clean_consistency_repair :
    (∀ rs out, clean_sales_data rs = some out →
      ∀ c ∈ out, ∀ up ta, c.unit_price = some up → c.total_amount = some ta →
        |ta - (c.quantity : Rat) * up| ≤ 1/100) ∧
    clean_sales_data [rawInconsistent] = some [cleanRepaired] := by
  constructor
  · intro rs out hcl c hc
    exact (clean_sales_data_good rs out hcl c hc).1
  · exact clean_eval_inconsistent

/-- Witness for C1 amended at the scenario input. -/
theorem clean_consistency_repair_witness :
    |(50 : Rat) - (cleanRepaired.quantity : Rat) * 10| ≤ 1/100 :=
  clean_consistency_repair.1 [rawInconsistent] [cleanRepaired]
    clean_consistency_repair.2 cleanRepaired (List.mem_singleton.2 rfl) 10 50 rfl rfl

/-- C2: no cleaned row has a negative quantity, and no number-valued
unit_price or total_amount cell of a cleaned row is negative (a NaN
cell compares false against 0 and is not a negative value) — rows still
negative after consistency repair are dropped entirely; the scenario
row with quantity = −1 is removed from the output. -/
theorem clean_drops_negative_rows :
    (∀ rs out, clean_sales_data rs = some out →
      ∀ c ∈ out, 0 ≤ c.quantity ∧ (∀ v, c.unit_price = some v → 0 ≤ v) ∧
        (∀ v, c.total_amount = some v → 0 ≤ v)) ∧
    clean_sales_data [rawNegative] = some [] := by
  constructor
  · intro rs out hcl c hc
    have h := clean_sales_data_good rs out hcl c hc
    exact ⟨h.2.1, h.2.2.1, h.2.2.2.1⟩
  · exact clean_eval_negative

/-- Witness for C2 at the scenario input of C1 (whose output row is
retained and non-negative). -/
theorem clean_drops_negative_rows_witness :
    0 ≤ cleanRepaired.quantity ∧ 0 ≤ (10 : Rat) ∧ 0 ≤ (50 : Rat) := by
  have h := clean_drops_negative_rows.1 [rawInconsistent] [cleanRepaired]
    clean_eval_inconsistent cleanRepaired (List.mem_singleton.2 rfl)
  exact ⟨h.1, h.2.1 10 rfl, h.2.2 50 rfl⟩

/-! ## C4: deduplication and order_id uniqueness -/

/-- Two valid raw rows sharing an order_id but differing elsewhere. -/
def rawSharedIdA : RawRow :=
  { order_id := "O7", product_name := some "Pen", category := some "Office",
    quantity := some 1, unit_price := some 2, total_amount := some 2,
    customer_id := some "C3", order_date := some ⟨2024, 3, 1⟩,
    region := some "North" }

/-- Same order_id as `rawSharedIdA`, different product and amounts. -/
def rawSharedIdB : RawRow :=
  { order_id := "O7", product_name := some "Pencil", category := some "Office",
    quantity := some 2, unit_price := some 3, total_amount := some 6,
    customer_id := some "C3", order_date := some ⟨2024, 3, 1⟩,
    region := some "North" }

/-- C4 counterexample: `drop_duplicates` removes only rows that agree on
every column, so two rows sharing an order_id but differing in another
column both survive cleaning — the output's order_id values are not
pairwise distinct. -/
theorem clean_order_id_not_unique :
    Option.map (fun l => l.map (fun c => c.order_id))
      (clean_sales_data [rawSharedIdA, rawSharedIdB]) = some ["O7", "O7"] := by
  norm_num [clean_sales_data, imputeAll, fillNumCol, fillTextCol, fillDateCol,
    dedupKeepFirst, coerceAll, coerceRow, repairRow, calcTotal, fpMul, fpSub,
    fpAbs, fpLt, negRow, trimRow, deriveRow,
    stripStr, isWs, ratTrunc, rawSharedIdA, rawSharedIdB, List.dropWhile, List.filterMap_cons]

/-- C4 amended: the deduplication step makes the retained rows pairwise
distinct as whole rows (no two exact duplicates across all columns);
order_id uniqueness is not established. -/
theorem dedup_rows_pairwise_distinct :
    ∀ rs : List RawRow, (dedupKeepFirst (imputeAll rs)).Pairwise (fun a b => a ≠ b) :=
  fun rs => dedupKeepFirst_pairwise (imputeAll rs)

/-! ## C8: running Clean on its own output -/

/-- Re-injection of a cleaned row into the cleaner's input format, as
happens when `cleaned_sales.csv` is read back: every text, quantity and
date cell is present, while a NaN float cell is written as an empty CSV
cell and read back as NaN.  The derived month/year columns also
round-trip through the CSV, but on cleaner output they are functions of
order_date, so equality of rows — and hence deduplication — is
unaffected by dropping them here; the second run recomputes them in its
derivation step. -/
def toRaw (c : CleanRow) : RawRow :=
  { order_id := c.order_id, product_name := some c.product_name,
    category := some c.category, quantity := some ((c.quantity : Rat)),
    unit_price := c.unit_price, total_amount := c.total_amount,
    customer_id := some c.customer_id, order_date := some c.order_date,
    region := some c.region }

theorem isEmpty_false_of_ne_nil {α : Type} {l : List α} (h : l ≠ []) :
    l.isEmpty = false := by
  cases l with
  | nil => exact absurd rfl h
  | cons a l => rfl

theorem filterMap_nil_iff {α β : Type} (f : α → Option β) :
    ∀ l : List α, l.filterMap f = [] ↔ ∀ a ∈ l, f a = none
  | [] => by simp
  | x :: l => by
    rw [List.filterMap_cons]
    cases hx : f x with
    | none =>
      simp only [List.mem_cons]
      rw [filterMap_nil_iff f l]
      constructor
      · intro h a ha
        rcases ha with rfl | ha2
        · exact hx
        · exact h a ha2
      · intro h a ha
        exact h a (Or.inr ha)
    | some b =>
      simp only [List.mem_cons]
      constructor
      · intro h
        exact absurd h (by simp)
      · intro h
        exact absurd (h x (Or.inl rfl)) (by simp [hx])

theorem imputeAll_eq_self (rs : List RawRow)
    (h : ∀ r ∈ rs, (∃ a, r.product_name = some a) ∧ (∃ a, r.category = some a) ∧
      (∃ a, r.quantity = some a) ∧ (∃ a, r.customer_id = some a) ∧
      (∃ a, r.order_date = some a) ∧ (∃ a, r.region = some a))
    (hup : (∀ r ∈ rs, r.unit_price = none) ∨ (∀ r ∈ rs, ∃ v, r.unit_price = some v))
    (hta : (∀ r ∈ rs, r.total_amount = none) ∨ (∀ r ∈ rs, ∃ v, r.total_amount = some v)) :
    imputeAll rs = rs := by
  have hupfill : ∀ r ∈ rs,
      fillNumCol (rs.filterMap RawRow.unit_price) r.unit_price = r.unit_price := by
    rcases hup with h0 | h0
    · intro r hr
      rw [h0 r hr, (filterMap_nil_iff RawRow.unit_price rs).2 h0]
      rfl
    · intro r hr
      obtain ⟨v, hv⟩ := h0 r hr
      rw [hv]
      rfl
  have htafill : ∀ r ∈ rs,
      fillNumCol (rs.filterMap RawRow.total_amount) r.total_amount = r.total_amount := by
    rcases hta with h0 | h0
    · intro r hr
      rw [h0 r hr, (filterMap_nil_iff RawRow.total_amount rs).2 h0]
      rfl
    · intro r hr
      obtain ⟨v, hv⟩ := h0 r hr
      rw [hv]
      rfl
  simp only [imputeAll]
  conv_rhs => rw [← List.map_id rs]
  apply List.map_congr_left
  intro r hr
  obtain ⟨⟨pn, hpn⟩, ⟨cat, hcat⟩, ⟨q, hq⟩,
    ⟨cid, hcid⟩, ⟨od, hod⟩, ⟨reg, hreg⟩⟩ := h r hr
  have h1 := hupfill r hr
  have h2 := htafill r hr
  cases r
  simp_all [fillTextCol, fillNumCol, fillDateCol]

theorem imputeAll_toRaw (l : List CleanRow)
    (hup : (∀ c ∈ l, c.unit_price = none) ∨ (∀ c ∈ l, ∃ v, c.unit_price = some v))
    (hta : (∀ c ∈ l, c.total_amount = none) ∨ (∀ c ∈ l, ∃ v, c.total_amount = some v)) :
    imputeAll (l.map toRaw) = l.map toRaw := by
  apply imputeAll_eq_self
  · intro r hr
    obtain ⟨c, -, rfl⟩ := List.mem_map.1 hr
    exact ⟨⟨_, rfl⟩, ⟨_, rfl⟩, ⟨_, rfl⟩, ⟨_, rfl⟩, ⟨_, rfl⟩, ⟨_, rfl⟩⟩
  · rcases hup with h0 | h0
    · refine Or.inl ?_
      intro r hr
      obtain ⟨c, hc, rfl⟩ := List.mem_map.1 hr
      exact h0 c hc
    · refine Or.inr ?_
      intro r hr
      obtain ⟨c, hc, rfl⟩ := List.mem_map.1 hr
      exact h0 c hc
  · rcases hta with h0 | h0
    · refine Or.inl ?_
      intro r hr
      obtain ⟨c, hc, rfl⟩ := List.mem_map.1 hr
      exact h0 c hc
    · refine Or.inr ?_
      intro r hr
      obtain ⟨c, hc, rfl⟩ := List.mem_map.1 hr
      exact h0 c hc

theorem ratTrunc_intCast (n : Int) : ratTrunc ((n : Rat)) = n := by
  unfold ratTrunc
  rcases le_or_lt 0 n with h | h
  · rw [if_neg (not_lt.2 (by exact_mod_cast h))]
    rw [Rat.num_intCast, Rat.den_intCast]
    simp [Int.toNat_of_nonneg h]
  · rw [if_pos (by exact_mod_cast h)]
    rw [show -((n : Rat)) = ((-n : Int) : Rat) by push_cast; ring]
    rw [Rat.num_intCast, Rat.den_intCast]
    have hn : (0 : Int) ≤ -n := by omega
    simp [Int.toNat_of_nonneg hn]

theorem coerceRow_toRaw (c : CleanRow) : coerceRow (toRaw c) = some c.toTypedRow := by
  cases c with
  | mk t m y =>
    cases t
    simp [coerceRow, toRaw, ratTrunc_intCast]

theorem coerceAll_map_toRaw : ∀ l : List CleanRow,
    coerceAll (l.map toRaw) = some (l.map CleanRow.toTypedRow)
  | [] => rfl
  | c :: l => by
    simp [coerceAll, coerceRow_toRaw c, coerceAll_map_toRaw l]

theorem coerceRow_unit_price {r : RawRow} {t : TypedRow} (h : coerceRow r = some t) :
    t.unit_price = r.unit_price := by
  unfold coerceRow at h
  split at h
  · obtain rfl := Option.some_inj.1 h
    rfl
  · exact absurd h (by simp)

theorem coerceRow_total_amount {r : RawRow} {t : TypedRow} (h : coerceRow r = some t) :
    t.total_amount = r.total_amount := by
  unfold coerceRow at h
  split at h
  · obtain rfl := Option.some_inj.1 h
    rfl
  · exact absurd h (by simp)

theorem coerceAll_mem : ∀ (l : List RawRow) (ts : List TypedRow),
    coerceAll l = some ts → ∀ t ∈ ts, ∃ r ∈ l, coerceRow r = some t
  | [], ts, h, t, ht => by
    simp only [coerceAll, Option.some_inj] at h
    subst h
    simp at ht
  | r :: l, ts, h, t, ht => by
    simp only [coerceAll] at h
    cases hcr : coerceRow r with
    | none =>
      rw [hcr] at h
      exact absurd h (by simp)
    | some t0 =>
      rw [hcr] at h
      cases hca : coerceAll l with
      | none =>
        rw [hca] at h
        exact absurd h (by simp)
      | some ts0 =>
        rw [hca] at h
        simp only [Option.some_inj] at h
        subst h
        rcases List.mem_cons.1 ht with rfl | ht2
        · exact ⟨r, List.mem_cons_self r l, hcr⟩
        · obtain ⟨r2, hr2, hcr2⟩ := coerceAll_mem l ts0 hca t ht2
          exact ⟨r2, List.mem_cons_of_mem r hr2, hcr2⟩

theorem repairRow_total_amount_none {t : TypedRow} (h : t.total_amount = none) :
    (repairRow t).total_amount = none := by
  unfold repairRow
  split
  · rename_i hcond
    rw [h] at hcond
    simp [fpSub, fpAbs, fpLt] at hcond
  · exact h

theorem repairRow_total_amount_some {t : TypedRow} (h : ∃ v, t.total_amount = some v) :
    ∃ v, (repairRow t).total_amount = some v := by
  obtain ⟨v, hv⟩ := h
  unfold repairRow
  split
  · rename_i hcond
    cases hct : calcTotal t with
    | none =>
      rw [hv, hct] at hcond
      simp [fpSub, fpAbs, fpLt] at hcond
    | some w =>
      exact ⟨w, rfl⟩
  · exact ⟨v, hv⟩

theorem trimRow_unit_price (t : TypedRow) : (trimRow t).unit_price = t.unit_price := rfl

theorem trimRow_total_amount (t : TypedRow) : (trimRow t).total_amount = t.total_amount := rfl

theorem deriveRow_unit_price (t : TypedRow) : (deriveRow t).unit_price = t.unit_price := rfl

theorem deriveRow_total_amount (t : TypedRow) : (deriveRow t).total_amount = t.total_amount := rfl

theorem imputeAll_unit_price_homog (rs : List RawRow) :
    (∀ r ∈ imputeAll rs, r.unit_price = none) ∨
    (∀ r ∈ imputeAll rs, ∃ v, r.unit_price = some v) := by
  by_cases hp : rs.filterMap RawRow.unit_price = []
  · refine Or.inl ?_
    intro r hr
    simp only [imputeAll, List.mem_map] at hr
    obtain ⟨r0, hr0, rfl⟩ := hr
    show fillNumCol (rs.filterMap RawRow.unit_price) r0.unit_price = none
    rw [(filterMap_nil_iff RawRow.unit_price rs).1 hp r0 hr0, hp]
    rfl
  · refine Or.inr ?_
    intro r hr
    simp only [imputeAll, List.mem_map] at hr
    obtain ⟨r0, hr0, rfl⟩ := hr
    show ∃ v, fillNumCol (rs.filterMap RawRow.unit_price) r0.unit_price = some v
    cases hv : r0.unit_price with
    | none =>
      refine ⟨medianRat (rs.filterMap RawRow.unit_price), ?_⟩
      simp [fillNumCol, isEmpty_false_of_ne_nil hp]
    | some v =>
      exact ⟨v, rfl⟩

theorem imputeAll_total_amount_homog (rs : List RawRow) :
    (∀ r ∈ imputeAll rs, r.total_amount = none) ∨
    (∀ r ∈ imputeAll rs, ∃ v, r.total_amount = some v) := by
  by_cases hp : rs.filterMap RawRow.total_amount = []
  · refine Or.inl ?_
    intro r hr
    simp only [imputeAll, List.mem_map] at hr
    obtain ⟨r0, hr0, rfl⟩ := hr
    show fillNumCol (rs.filterMap RawRow.total_amount) r0.total_amount = none
    rw [(filterMap_nil_iff RawRow.total_amount rs).1 hp r0 hr0, hp]
    rfl
  · refine Or.inr ?_
    intro r hr
    simp only [imputeAll, List.mem_map] at hr
    obtain ⟨r0, hr0, rfl⟩ := hr
    show ∃ v, fillNumCol (rs.filterMap RawRow.total_amount) r0.total_amount = some v
    cases hv : r0.total_amount with
    | none =>
      refine ⟨medianRat (rs.filterMap RawRow.total_amount), ?_⟩
      simp [fillNumCol, isEmpty_false_of_ne_nil hp]
    | some v =>
      exact ⟨v, rfl⟩

/-- Column homogeneity of the cleaner's output: each float column is
either entirely NaN (its input column had no non-missing value, so the
NaN flowed through every row) or entirely numeric (the median fill
covered every hole). -/
theorem clean_sales_data_float_homog (rs : List RawRow) (out : List CleanRow)
    (hcl : clean_sales_data rs = some out) :
    ((∀ c ∈ out, c.unit_price = none) ∨ (∀ c ∈ out, ∃ v, c.unit_price = some v)) ∧
    ((∀ c ∈ out, c.total_amount = none) ∨ (∀ c ∈ out, ∃ v, c.total_amount = some v)) := by
  unfold clean_sales_data at hcl
  cases hts : coerceAll (dedupKeepFirst (imputeAll rs)) with
  | none =>
    rw [hts] at hcl
    exact absurd hcl (by simp)
  | some ts =>
    rw [hts] at hcl
    simp only [Option.some_inj] at hcl
    subst hcl
    have key : ∀ c ∈ ((((ts.map repairRow).filter
          (fun r => !negRow r)).map trimRow).map deriveRow),
        ∃ r ∈ imputeAll rs, c.unit_price = r.unit_price ∧
          (r.total_amount = none → c.total_amount = none) ∧
          ((∃ v, r.total_amount = some v) → ∃ v, c.total_amount = some v) := by
      intro c hc
      obtain ⟨u3, hu3, rfl⟩ := List.mem_map.1 hc
      obtain ⟨u2, hu2, rfl⟩ := List.mem_map.1 hu3
      have hfil := List.mem_filter.1 hu2
      obtain ⟨u1, hu1, rfl⟩ := List.mem_map.1 hfil.1
      obtain ⟨r, hr, hcoe⟩ := coerceAll_mem _ _ hts u1 hu1
      refine ⟨r, (mem_dedupKeepFirst _ _).1 hr, ?_, ?_, ?_⟩
      · rw [deriveRow_unit_price, trimRow_unit_price, repairRow_unit_price,
          coerceRow_unit_price hcoe]
      · intro h0
        rw [deriveRow_total_amount, trimRow_total_amount]
        exact repairRow_total_amount_none (by rw [coerceRow_total_amount hcoe, h0])
      · intro hsome
        rw [deriveRow_total_amount, trimRow_total_amount]
        apply repairRow_total_amount_some
        rw [coerceRow_total_amount hcoe]
        exact hsome
    constructor
    · rcases imputeAll_unit_price_homog rs with h | h
      · refine Or.inl ?_
        intro c hc
        obtain ⟨r, hr, h1, -, -⟩ := key c hc
        rw [h1]
        exact h r hr
      · refine Or.inr ?_
        intro c hc
        obtain ⟨r, hr, h1, -, -⟩ := key c hc
        obtain ⟨v, hv⟩ := h r hr
        exact ⟨v, by rw [h1, hv]⟩
    · rcases imputeAll_total_amount_homog rs with h | h
      · refine Or.inl ?_
        intro c hc
        obtain ⟨r, hr, -, h2, -⟩ := key c hc
        exact h2 (h r hr)
      · refine Or.inr ?_
        intro c hc
        obtain ⟨r, hr, -, -, h3⟩ := key c hc
        exact h3 (h r hr)

theorem repairRow_eq_self {t : TypedRow}
    (h : ∀ up ta, t.unit_price = some up → t.total_amount = some ta →
      |ta - (t.quantity : Rat) * up| ≤ 1/100) :
    repairRow t = t := by
  have hneg : ¬ fpLt (some (1/100)) (fpAbs (fpSub t.total_amount (calcTotal t))) = true := by
    intro hcond
    cases hta : t.total_amount with
    | none =>
      rw [hta] at hcond
      simp [fpSub, fpAbs, fpLt] at hcond
    | some ta =>
      cases hup : t.unit_price with
      | none =>
        rw [hta] at hcond
        simp [calcTotal, hup, fpMul, fpSub, fpAbs, fpLt] at hcond
      | some up =>
        rw [hta] at hcond
        simp only [calcTotal, hup, fpMul, fpSub, fpAbs, fpLt,
          decide_eq_true_eq] at hcond
        exact absurd hcond (not_lt.2 (h up ta hup hta))
  unfold repairRow
  rw [if_neg hneg]

theorem negRow_false_of_nonneg {t : TypedRow} (h1 : 0 ≤ t.quantity)
    (h2 : ∀ v, t.unit_price = some v → 0 ≤ v)
    (h3 : ∀ v, t.total_amount = some v → 0 ≤ v) : negRow t = false := by
  have hup : fpLt t.unit_price (some 0) = false := by
    cases hv : t.unit_price with
    | none => rfl
    | some v =>
      simp only [fpLt]
      exact decide_eq_false (not_lt.2 (h2 v hv))
  have hta : fpLt t.total_amount (some 0) = false := by
    cases hv : t.total_amount with
    | none => rfl
    | some v =>
      simp only [fpLt]
      exact decide_eq_false (not_lt.2 (h3 v hv))
  unfold negRow
  rw [decide_eq_false (not_lt.2 h1), hup, hta]
  rfl

theorem trimRow_eq_self {t : TypedRow} (h1 : stripStr t.product_name = t.product_name)
    (h2 : stripStr t.category = t.category) (h3 : stripStr t.region = t.region) :
    trimRow t = t := by
  unfold trimRow
  rw [h1, h2, h3]

theorem deriveRow_toTypedRow {c : CleanRow} (hm : c.month = c.toTypedRow.order_date.month)
    (hy : c.year = c.toTypedRow.order_date.year) :
    deriveRow c.toTypedRow = c := by
  cases c
  simp only [deriveRow] at *
  simp [hm, hy]

theorem toRaw_inj_on_good {a b : CleanRow} (ha : GoodClean a) (hb : GoodClean b)
    (h : toRaw a = toRaw b) : a = b := by
  obtain ⟨-, -, -, -, -, -, -, hma, hya⟩ := ha
  obtain ⟨-, -, -, -, -, -, -, hmb, hyb⟩ := hb
  cases a with
  | mk ta ma yca =>
    cases b with
    | mk tb mb ycb =>
      cases ta
      cases tb
      simp only [toRaw, RawRow.mk.injEq, Option.some.injEq, Int.cast_inj] at h
      simp only [TypedRow.mk.injEq] at *
      obtain ⟨h1, h2, h3, h4, h5, h6, h7, h8, h9⟩ := h
      subst h1; subst h2; subst h3; subst h4; subst h5; subst h6; subst h7; subst h8; subst h9
      simp_all

theorem clean_sales_data_eq (rs : List RawRow) (ts : List TypedRow)
    (h : coerceAll (dedupKeepFirst (imputeAll rs)) = some ts) :
    clean_sales_data rs =
      some (((((ts.map repairRow).filter (fun r => !negRow r)).map trimRow).map deriveRow)) := by
  unfold clean_sales_data
  rw [h]

/-- C8 amended: a second run of Clean on the first run's output performs
exactly one more deduplication — `clean (clean rs) = dedup (clean rs)` —
and is therefore the identity precisely when the first output has no
exact duplicate rows (consistency repair and trimming can merge two
distinct input rows into identical output rows, which only the second
run's dedup removes). -/
theorem clean_idempotent_mod_dedup :
    (∀ rs out, clean_sales_data rs = some out →
      clean_sales_data (out.map toRaw) = some (dedupKeepFirst out)) ∧
    (∀ l : List CleanRow, l.Pairwise (fun a b => a ≠ b) → dedupKeepFirst l = l) := by
  constructor
  · intro rs out hcl
    have hgood : ∀ c ∈ out, GoodClean c := clean_sales_data_good rs out hcl
    have hdm : dedupKeepFirst (out.map toRaw) = (dedupKeepFirst out).map toRaw :=
      dedupKeepFirst_map toRaw out
        (fun a ha b hb hf => toRaw_inj_on_good (hgood a ha) (hgood b hb) hf)
    have hhom := clean_sales_data_float_homog rs out hcl
    have hco : coerceAll (dedupKeepFirst (imputeAll (out.map toRaw)))
        = some ((dedupKeepFirst out).map CleanRow.toTypedRow) := by
      rw [imputeAll_toRaw out hhom.1 hhom.2, hdm, coerceAll_map_toRaw]
    rw [clean_sales_data_eq (out.map toRaw) _ hco]
    congr 1
    have hsub : ∀ c ∈ dedupKeepFirst out, GoodClean c := fun c hc =>
      hgood c ((mem_dedupKeepFirst out c).1 hc)
    have h1 : ((dedupKeepFirst out).map CleanRow.toTypedRow).map repairRow
        = (dedupKeepFirst out).map CleanRow.toTypedRow := by
      rw [List.map_map]
      exact List.map_congr_left (fun c hc => repairRow_eq_self (hsub c hc).1)
    rw [h1]
    have h2 : ((dedupKeepFirst out).map CleanRow.toTypedRow).filter (fun r => !negRow r)
        = (dedupKeepFirst out).map CleanRow.toTypedRow := by
      rw [List.filter_eq_self]
      intro t ht
      obtain ⟨c, hc, rfl⟩ := List.mem_map.1 ht
      have g := hsub c hc
      rw [negRow_false_of_nonneg g.2.1 g.2.2.1 g.2.2.2.1]
      rfl
    rw [h2]
    have h3 : ((dedupKeepFirst out).map CleanRow.toTypedRow).map trimRow
        = (dedupKeepFirst out).map CleanRow.toTypedRow := by
      rw [List.map_map]
      exact List.map_congr_left (fun c hc =>
        trimRow_eq_self (hsub c hc).2.2.2.2.1 (hsub c hc).2.2.2.2.2.1
          (hsub c hc).2.2.2.2.2.2.1)
    rw [h3]
    have h4 : ((dedupKeepFirst out).map CleanRow.toTypedRow).map deriveRow
        = dedupKeepFirst out := by
      rw [List.map_map]
      have h5 : (dedupKeepFirst out).map (deriveRow ∘ CleanRow.toTypedRow)
          = (dedupKeepFirst out).map id :=
        List.map_congr_left (fun c hc =>
          deriveRow_toTypedRow (hsub c hc).2.2.2.2.2.2.2.1 (hsub c hc).2.2.2.2.2.2.2.2)
      rw [h5, List.map_id]
    rw [h4]
  · exact fun l h => dedupKeepFirst_eq_self l h

/-- Two raw rows identical except for total_amount (40 vs 30), both
inconsistent with quantity × unit_price = 50: repair rewrites both
totals to 50 and the rows become identical in the output. -/
def rawMerge40 : RawRow :=
  { order_id := "O9", product_name := some "Mug", category := some "Kitchen",
    quantity := some 5, unit_price := some 10, total_amount := some 40,
    customer_id := some "C9", order_date := some ⟨2024, 4, 2⟩,
    region := some "South" }

/-- Identical to `rawMerge40` except total_amount = 30. -/
def rawMerge30 : RawRow :=
  { order_id := "O9", product_name := some "Mug", category := some "Kitchen",
    quantity := some 5, unit_price := some 10, total_amount := some 30,
    customer_id := some "C9", order_date := some ⟨2024, 4, 2⟩,
    region := some "South" }

/-- The common repaired row both of them become. -/
def cleanMerged : CleanRow :=
  { order_id := "O9", product_name := "Mug", category := "Kitchen",
    quantity := 5, unit_price := some 10, total_amount := some 50,
    customer_id := "C9", order_date := ⟨2024, 4, 2⟩, region := "South",
    month := 4, year := 2024 }

theorem clean_eval_merge :
    clean_sales_data [rawMerge40, rawMerge30] = some [cleanMerged, cleanMerged] := by
  norm_num [clean_sales_data, imputeAll, fillNumCol, fillTextCol, fillDateCol,
    dedupKeepFirst, coerceAll, coerceRow, repairRow, calcTotal, fpMul, fpSub,
    fpAbs, fpLt, negRow, trimRow, deriveRow,
    stripStr, isWs, ratTrunc, rawMerge40, rawMerge30, cleanMerged, List.dropWhile, List.filterMap_cons]
  decide

/-- C8 counterexample: cleaning `[rawMerge40, rawMerge30]` yields two
identical rows; cleaning that output again deduplicates them, so the
second run's output differs from its input. -/
theorem clean_not_idempotent :
    clean_sales_data [rawMerge40, rawMerge30] = some [cleanMerged, cleanMerged] ∧
    clean_sales_data ([cleanMerged, cleanMerged].map toRaw) = some [cleanMerged] ∧
    some [cleanMerged] ≠ some [cleanMerged, cleanMerged] := by
  refine ⟨clean_eval_merge, ?_, by simp⟩
  norm_num [clean_sales_data, imputeAll, fillNumCol, fillTextCol, fillDateCol,
    dedupKeepFirst, coerceAll, coerceRow, repairRow, calcTotal, fpMul, fpSub,
    fpAbs, fpLt, negRow, trimRow, deriveRow,
    stripStr, isWs, ratTrunc, toRaw, cleanMerged, List.dropWhile, List.filterMap_cons]
  decide

/-- Witness for the C8 amended theorem at the merge scenario. -/
theorem clean_idempotent_mod_dedup_witness :
    clean_sales_data ([cleanMerged, cleanMerged].map toRaw)
      = some (dedupKeepFirst [cleanMerged, cleanMerged]) :=
  clean_idempotent_mod_dedup.1 [rawMerge40, rawMerge30] [cleanMerged, cleanMerged]
    clean_eval_merge

/-! ## C5 / C10: segment binning -/

/-- Modelled from the claim's wording, for comparison with the source's
`pd.cut` behaviour: revenue bins read as inclusive-lower /
exclusive-upper ([0,100) Low, [100,500) Medium, [500,1000) High,
[1000,∞) Very High). -/
def revenueSegmentLowerInclusive (a : Rat) : Option String :=
  if 0 ≤ a ∧ a < 100 then some "Low"
  else if 100 ≤ a ∧ a < 500 then some "Medium"
  else if 500 ≤ a ∧ a < 1000 then some "High"
  else if 1000 ≤ a then some "Very High"
  else none

/-- A cleaned row with total_amount exactly at the 100 boundary. -/
def cleanAt100 : CleanRow :=
  { order_id := "B1", product_name := "Lamp", category := "Home",
    quantity := 10, unit_price := some 10, total_amount := some 100,
    customer_id := "C5", order_date := ⟨2024, 5, 6⟩, region := "West",
    month := 5, year := 2024 }

/-- A cleaned row with total_amount 750. -/
def cleanAt750 : CleanRow :=
  { order_id := "B2", product_name := "Desk", category := "Home",
    quantity := 3, unit_price := some 250, total_amount := some 750,
    customer_id := "C5", order_date := ⟨2024, 5, 7⟩, region := "West",
    month := 5, year := 2024 }

/-- A cleaned row with total_amount 1500. -/
def cleanAt1500 : CleanRow :=
  { order_id := "B3", product_name := "Sofa", category := "Home",
    quantity := 1, unit_price := some 1500, total_amount := some 1500,
    customer_id := "C5", order_date := ⟨2024, 5, 8⟩, region := "West",
    month := 5, year := 2024 }

/-- A cleaned row with quantity 4. -/
def cleanQty4 : CleanRow :=
  { order_id := "B4", product_name := "Cup", category := "Kitchen",
    quantity := 4, unit_price := some 5, total_amount := some 20,
    customer_id := "C5", order_date := ⟨2024, 5, 9⟩, region := "West",
    month := 5, year := 2024 }

/-- C5 counterexample: at the bin edge 100 the code labels "Low"
(`pd.cut` intervals are right-closed, (0,100]), while the claimed
inclusive-lower/exclusive-upper reading demands "Medium" ([100,500)). -/
theorem segment_bins_not_lower_inclusive :
    cleanAt100.total_amount = some 100 ∧
    (enrichRow cleanAt100).revenue_segment = some "Low" ∧
    revenueSegmentLowerInclusive 100 = some "Medium" ∧
    (enrichRow cleanAt100).revenue_segment ≠ revenueSegmentLowerInclusive 100 := by
  norm_num [enrichRow, revenueSegment, revenueSegmentLowerInclusive, cleanAt100]
  decide

/-- C5 amended: segment labels are assigned by binning with
exclusive-lower / inclusive-upper edges and an open-ended final bin:
total_amount in (0,100] ↦ Low, (100,500] ↦ Medium, (500,1000] ↦ High,
(1000,∞) ↦ Very High; quantity in (0,1] ↦ Single, (1,3] ↦ Small,
(3,5] ↦ Medium, (5,∞) ↦ Large.  The spec's concrete examples hold:
750 ↦ High, 1500 ↦ Very High, quantity 4 ↦ Medium. -/
theorem segments_upper_inclusive :
    (∀ r : CleanRow, ∀ v, r.total_amount = some v → 0 < v → v ≤ 100 →
        (enrichRow r).revenue_segment = some "Low") ∧
    (∀ r : CleanRow, ∀ v, r.total_amount = some v → 100 < v → v ≤ 500 →
        (enrichRow r).revenue_segment = some "Medium") ∧
    (∀ r : CleanRow, ∀ v, r.total_amount = some v → 500 < v → v ≤ 1000 →
        (enrichRow r).revenue_segment = some "High") ∧
    (∀ r : CleanRow, ∀ v, r.total_amount = some v → 1000 < v →
        (enrichRow r).revenue_segment = some "Very High") ∧
    (∀ r : CleanRow, 0 < r.quantity → r.quantity ≤ 1 →
        (enrichRow r).quantity_segment = some "Single") ∧
    (∀ r : CleanRow, 1 < r.quantity → r.quantity ≤ 3 →
        (enrichRow r).quantity_segment = some "Small") ∧
    (∀ r : CleanRow, 3 < r.quantity → r.quantity ≤ 5 →
        (enrichRow r).quantity_segment = some "Medium") ∧
    (∀ r : CleanRow, 5 < r.quantity →
        (enrichRow r).quantity_segment = some "Large") ∧
    (enrichRow cleanAt750).revenue_segment = some "High" ∧
    (enrichRow cleanAt1500).revenue_segment = some "Very High" ∧
    (enrichRow cleanQty4).quantity_segment = some "Medium" := by
  refine ⟨?_, ?_, ?_, ?_, ?_, ?_, ?_, ?_, ?_, ?_, ?_⟩
  · intro r v hv h1 h2
    simp only [enrichRow, hv, revenueSegment]
    split_ifs <;> first | rfl | (exfalso; linarith)
  · intro r v hv h1 h2
    simp only [enrichRow, hv, revenueSegment]
    split_ifs <;> first | rfl | (exfalso; linarith)
  · intro r v hv h1 h2
    simp only [enrichRow, hv, revenueSegment]
    split_ifs <;> first | rfl | (exfalso; linarith)
  · intro r v hv h1
    simp only [enrichRow, hv, revenueSegment]
    split_ifs <;> first | rfl | (exfalso; linarith)
  · intro r h1 h2
    simp only [enrichRow, quantitySegment]
    split_ifs <;> first | rfl | (exfalso; omega)
  · intro r h1 h2
    simp only [enrichRow, quantitySegment]
    split_ifs <;> first | rfl | (exfalso; omega)
  · intro r h1 h2
    simp only [enrichRow, quantitySegment]
    split_ifs <;> first | rfl | (exfalso; omega)
  · intro r h1
    simp only [enrichRow, quantitySegment]
    split_ifs <;> first | rfl | (exfalso; omega)
  · norm_num [enrichRow, revenueSegment, cleanAt750]
  · norm_num [enrichRow, revenueSegment, cleanAt1500]
  · norm_num [enrichRow, quantitySegment, cleanQty4]

/-- Witness for C5 amended at the three example rows. -/
theorem segments_upper_inclusive_witness :
    (enrichRow cleanAt750).revenue_segment = some "High" ∧
    (enrichRow cleanAt1500).revenue_segment = some "Very High" ∧
    (enrichRow cleanQty4).quantity_segment = some "Medium" :=
  ⟨segments_upper_inclusive.2.2.1 cleanAt750 750 rfl (by norm_num) (by norm_num),
   segments_upper_inclusive.2.2.2.1 cleanAt1500 1500 rfl (by norm_num),
   segments_upper_inclusive.2.2.2.2.2.2.1 cleanQty4 (by norm_num [cleanQty4])
      (by norm_num [cleanQty4])⟩

/-- Raw row with quantity 0 and total_amount 0: consistent (0 = 0·10)
and non-negative, so it survives cleaning. -/
def rawZero : RawRow :=
  { order_id := "Z1", product_name := some "Sticker", category := some "Paper",
    quantity := some 0, unit_price := some 10, total_amount := some 0,
    customer_id := some "C0", order_date := some ⟨2024, 6, 1⟩,
    region := some "East" }

/-- The cleaned form of `rawZero`. -/
def cleanZero : CleanRow :=
  { order_id := "Z1", product_name := "Sticker", category := "Paper",
    quantity := 0, unit_price := some 10, total_amount := some 0,
    customer_id := "C0", order_date := ⟨2024, 6, 1⟩, region := "East",
    month := 6, year := 2024 }

/-- C10: a row with total_amount = 0 gets no revenue_segment and a row
with quantity = 0 gets no quantity_segment (the `pd.cut` bins are open
at the lower edge 0), yet such rows are valid cleaner output and flow
through enrichment unlabeled. -/
theorem zero_rows_unlabeled :
    (∀ r : CleanRow, r.total_amount = some 0 → (enrichRow r).revenue_segment = none) ∧
    (∀ r : CleanRow, r.quantity = 0 → (enrichRow r).quantity_segment = none) ∧
    clean_sales_data [rawZero] = some [cleanZero] ∧
    (enrichRow cleanZero).revenue_segment = none ∧
    (enrichRow cleanZero).quantity_segment = none := by
  refine ⟨?_, ?_, ?_, ?_, ?_⟩
  · intro r h
    simp [enrichRow, revenueSegment, h]
  · intro r h
    simp [enrichRow, quantitySegment, h]
  · norm_num [clean_sales_data, imputeAll, fillNumCol, fillTextCol, fillDateCol,
      dedupKeepFirst, coerceAll, coerceRow, repairRow, calcTotal, fpMul, fpSub,
    fpAbs, fpLt, negRow, trimRow, deriveRow,
      stripStr, isWs, ratTrunc, rawZero, cleanZero, List.dropWhile, List.filterMap_cons]
    decide
  · simp [enrichRow, revenueSegment, cleanZero]
  · simp [enrichRow, quantitySegment, cleanZero]

/-- Witness for C10 at the zero row. -/
theorem zero_rows_unlabeled_witness :
    (enrichRow cleanZero).revenue_segment = none ∧
    (enrichRow cleanZero).quantity_segment = none :=
  ⟨zero_rows_unlabeled.1 cleanZero rfl, zero_rows_unlabeled.2.1 cleanZero rfl⟩

/-! ## C3: top-products limit handling -/

/-- A single enriched row loaded into the `sales_data` table. -/
def enrichedDemo : EnrichedRow :=
  { order_id := "T1", product_name := "Alpha", category := "Misc",
    quantity := 2, unit_price := some 50, total_amount := some 100,
    customer_id := "C1", order_date := ⟨2024, 7, 1⟩, region := "West",
    month := 7, year := 2024, quarter := 3,
    revenue_segment := some "Low", quantity_segment := some "Small" }

/-- The single group row the top-products query returns for
`[enrichedDemo]`. -/
def demoTopRow : TopProductRow :=
  { product_name := "Alpha", total_revenue := some 100, total_quantity := 2,
    order_count := 1, avg_unit_price := some 50 }

/-- C3 counterexample: a supplied `limit=0` is passed straight into the
SQL `LIMIT` and returns no rows, which differs from the missing-limit
(default 10) result — the claimed fall-back to 10 does not happen. -/
theorem top_products_limit_zero_not_default :
    top_products_route [enrichedDemo] (some 0) = [] ∧
    top_products_route [enrichedDemo] none = [demoTopRow] ∧
    top_products_route [enrichedDemo] (some 0) ≠ top_products_route [enrichedDemo] none := by
  norm_num [top_products_route, get_top_products, sqliteLimit, topProductsQuery,
    groupKeys, dedupKeepFirst, sortLe, insertLe, strLe, sortRevDesc, insertRevDesc,
    revLt, enrichedDemo, demoTopRow, List.take, List.filterMap_cons, List.isEmpty]

/-- C3 amended: only a missing (or unparseable) limit parameter falls
back to the default 10; a supplied integer limit is passed through to
the SQL `LIMIT` clause unvalidated — limit 0 returns no rows and a
negative limit returns every group (SQLite treats a negative LIMIT as
unlimited). -/
theorem top_products_limit_passthrough :
    (∀ db, top_products_route db none = get_top_products db 10) ∧
    (∀ db n, top_products_route db (some n) = get_top_products db n) ∧
    (∀ db, get_top_products db 0 = []) ∧
    (∀ db n, n < 0 → get_top_products db n = topProductsQuery db) ∧
    (∀ db n, 0 ≤ n → get_top_products db n = (topProductsQuery db).take n.toNat) := by
  refine ⟨fun db => rfl, fun db n => rfl, ?_, ?_, ?_⟩
  · intro db
    simp [get_top_products, sqliteLimit]
  · intro db n hn
    simp [get_top_products, sqliteLimit, hn]
  · intro db n hn
    simp [get_top_products, sqliteLimit, not_lt.2 hn]

/-- Witness for C3 amended: a negative and a positive limit on the demo
table. -/
theorem top_products_limit_passthrough_witness :
    get_top_products [enrichedDemo] (-5) = topProductsQuery [enrichedDemo] ∧
    get_top_products [enrichedDemo] 3 = (topProductsQuery [enrichedDemo]).take ((3 : Int)).toNat :=
  ⟨top_products_limit_passthrough.2.2.2.1 [enrichedDemo] (-5) (by norm_num),
   top_products_limit_passthrough.2.2.2.2 [enrichedDemo] 3 (by norm_num)⟩

/-! ## C7: fault handling on the query surface -/

/-- C7 counterexample: with the store unreachable (missing table) the
`/api/stats` endpoint still answers success=true — the service caught
the fault and returned the empty dict, so the route's error branch never
runs. -/
theorem stats_route_success_on_fault :
    (get_stats_route DbState.missing).success = true ∧
    (get_stats_route DbState.missing).data = some none ∧
    (get_stats_route DbState.missing).error = none :=
  ⟨rfl, rfl, rfl⟩

/-- C7 amended: faults raised while computing overall stats are caught
inside `DataService.get_overall_stats`, which returns empty data; the
route then responds success=true with that empty data (and no raw fault
object).  The route's success=false branch is unreachable through the
service call. -/
theorem stats_route_swallows_faults :
    (∀ db, (get_stats_route db).success = true ∧ (get_stats_route db).error = none) ∧
    (∀ db e, queryOverallStats db = Except.error e → (get_stats_route db).data = some none) ∧
    (∀ db s, queryOverallStats db = Except.ok s → (get_stats_route db).data = some (some s)) := by
  refine ⟨fun db => ⟨rfl, rfl⟩, ?_, ?_⟩
  · intro db e he
    simp [get_stats_route, route_wrap, get_overall_stats, he]
  · intro db s hs
    simp [get_stats_route, route_wrap, get_overall_stats, hs]

/-- Witness for C7 amended at the missing-store state. -/
theorem stats_route_swallows_faults_witness :
    (get_stats_route DbState.missing).data = some none :=
  stats_route_swallows_faults.2.1 DbState.missing "no such table: sales_data" rfl

/-! ## C6: product summary revenue round-trip -/

theorem summaryRowFor_product_name (df : List CleanRow) (p : String) :
    (summaryRowFor df p).product_name = p := rfl

theorem summaryRowFor_total_revenue (df : List CleanRow) (p : String) :
    (summaryRowFor df p).total_revenue
      = round2 (((df.filter (fun r => r.product_name = p)).filterMap
          (fun r => r.total_amount)).sum) := rfl

theorem summaryRowFor_order_count (df : List CleanRow) (p : String) :
    (summaryRowFor df p).order_count
      = (df.filter (fun r => r.product_name = p)).length := rfl

theorem roundHalfEven_close (q : Rat) : |((roundHalfEven q : Int) : Rat) - q| ≤ 1/2 := by
  have h0 : ((⌊q⌋ : Int) : Rat) ≤ q := Int.floor_le q
  have h1 : q < ((⌊q⌋ : Int) : Rat) + 1 := Int.lt_floor_add_one q
  unfold roundHalfEven
  split_ifs with hlt hgt heven
  · rw [abs_le]
    constructor <;> linarith
  · rw [abs_le]
    push_cast
    constructor <;> linarith
  · rw [abs_le]
    constructor <;> linarith
  · rw [abs_le]
    push_cast
    constructor <;> linarith

theorem round2_close (q : Rat) : |round2 q - q| ≤ 1/200 := by
  have h := roundHalfEven_close (q * 100)
  unfold round2
  rw [show ((roundHalfEven (q * 100) : Int) : Rat) / 100 - q
      = (((roundHalfEven (q * 100) : Int) : Rat) - q * 100) / 100 by ring]
  rw [abs_div, abs_of_pos (show (0 : Rat) < 100 by norm_num)]
  linarith

/-- First of three rows for product "A" (total_amounts 100, 200, 300). -/
def demoA1 : CleanRow :=
  { order_id := "A1", product_name := "A", category := "X",
    quantity := 1, unit_price := some 100, total_amount := some 100,
    customer_id := "K1", order_date := ⟨2024, 8, 1⟩, region := "West",
    month := 8, year := 2024 }

/-- Second demo row for product "A". -/
def demoA2 : CleanRow :=
  { order_id := "A2", product_name := "A", category := "X",
    quantity := 1, unit_price := some 200, total_amount := some 200,
    customer_id := "K2", order_date := ⟨2024, 8, 2⟩, region := "West",
    month := 8, year := 2024 }

/-- Third demo row for product "A". -/
def demoA3 : CleanRow :=
  { order_id := "A3", product_name := "A", category := "X",
    quantity := 1, unit_price := some 300, total_amount := some 300,
    customer_id := "K3", order_date := ⟨2024, 8, 3⟩, region := "West",
    month := 8, year := 2024 }

/-- The product-summary row for the three demo rows. -/
def demoASummary : ProductSummaryRow :=
  { product_name := "A", total_quantity_sold := 3, total_revenue := 600,
    order_count := 3, avg_unit_price := some 200, avg_order_value := 200 }

/-- C6: every product-summary row's total_revenue equals the sum of
total_amount over its group (the NaN-skipping pandas sum) within the
2-decimal rounding tolerance, and order_count is the group size; three
rows for product "A" with total_amounts [100, 200, 300] summarize to
total_revenue 600, order_count 3. -/
theorem product_summary_revenue_roundtrip :
    (∀ df s, s ∈ product_summary df →
      |s.total_revenue -
        ((df.filter (fun r => r.product_name = s.product_name)).filterMap
          (fun r => r.total_amount)).sum| ≤ 1/200 ∧
      s.order_count = (df.filter (fun r => r.product_name = s.product_name)).length) ∧
    product_summary [demoA1, demoA2, demoA3] = [demoASummary] := by
  constructor
  · intro df s hs
    obtain ⟨p, hp, hsp⟩ := List.mem_map.1 hs
    rw [← hsp, summaryRowFor_product_name, summaryRowFor_total_revenue,
      summaryRowFor_order_count]
    refine ⟨?_, rfl⟩
    exact round2_close _
  · norm_num [product_summary, summaryRowFor, groupKeys, dedupKeepFirst, sortLe,
      insertLe, strLe, round2, roundHalfEven, demoA1, demoA2, demoA3, demoASummary,
      List.filterMap_cons, List.isEmpty]

/-- Witness for C6 at the demo group. -/
theorem product_summary_revenue_roundtrip_witness :
    |demoASummary.total_revenue -
      (([demoA1, demoA2, demoA3].filter
        (fun r => r.product_name = demoASummary.product_name)).filterMap
          (fun r => r.total_amount)).sum| ≤ 1/200 ∧
    demoASummary.order_count =
      ([demoA1, demoA2, demoA3].filter
        (fun r => r.product_name = demoASummary.product_name)).length :=
  product_summary_revenue_roundtrip.1 [demoA1, demoA2, demoA3] demoASummary
    (by rw [product_summary_revenue_roundtrip.2]; exact List.mem_singleton.2 rfl)

/-! ## C9: deterministic idxmax tie-breaking -/

theorem mem_insertLe {α : Type} (le : α → α → Bool) (x : α) :
    ∀ (l : List α) (a : α), a ∈ insertLe le x l ↔ a = x ∨ a ∈ l
  | [], a => by simp [insertLe]
  | y :: ys, a => by
    unfold insertLe
    by_cases h : le x y = true
    · simp [h]
    · simp only [Bool.not_eq_true] at h
      simp only [h, Bool.false_eq_true, if_false, List.mem_cons, mem_insertLe le x ys a]
      tauto

theorem pairwise_insertLe {α : Type} (le : α → α → Bool)
    (htot : ∀ a b, le a b = true ∨ le b a = true)
    (htrans : ∀ a b c, le a b = true → le b c = true → le a c = true) :
    ∀ (l : List α) (x : α), l.Pairwise (fun a b => le a b = true) →
      (insertLe le x l).Pairwise (fun a b => le a b = true)
  | [], x, _ => by simp [insertLe]
  | y :: ys, x, h => by
    rw [List.pairwise_cons] at h
    unfold insertLe
    by_cases hxy : le x y = true
    · rw [if_pos hxy, List.pairwise_cons]
      refine ⟨?_, List.pairwise_cons.2 h⟩
      intro b hb
      rcases List.mem_cons.1 hb with rfl | hb2
      · exact hxy
      · exact htrans x y b hxy (h.1 b hb2)
    · rw [if_neg hxy, List.pairwise_cons]
      have hyx : le y x = true := (htot x y).resolve_left hxy
      refine ⟨?_, pairwise_insertLe le htot htrans ys x h.2⟩
      intro b hb
      rcases (mem_insertLe le x ys b).1 hb with rfl | hb2
      · exact hyx
      · exact h.1 b hb2

theorem pairwise_sortLe {α : Type} (le : α → α → Bool)
    (htot : ∀ a b, le a b = true ∨ le b a = true)
    (htrans : ∀ a b c, le a b = true → le b c = true → le a c = true) :
    ∀ l : List α, (sortLe le l).Pairwise (fun a b => le a b = true)
  | [] => List.Pairwise.nil
  | x :: xs =>
    pairwise_insertLe le htot htrans (sortLe le xs) x
      (pairwise_sortLe le htot htrans xs)

theorem mem_sortLe {α : Type} (le : α → α → Bool) :
    ∀ (l : List α) (a : α), a ∈ sortLe le l ↔ a ∈ l
  | [], a => Iff.rfl
  | x :: xs, a => by
    show a ∈ insertLe le x (sortLe le xs) ↔ _
    rw [mem_insertLe]
    simp [mem_sortLe le xs a]

theorem strLe_total : ∀ a b : String, strLe a b = true ∨ strLe b a = true := by
  intro a b
  rcases le_total a b with h | h
  · exact Or.inl (decide_eq_true h)
  · exact Or.inr (decide_eq_true h)

theorem strLe_trans : ∀ a b c : String,
    strLe a b = true → strLe b c = true → strLe a c = true := by
  intro a b c h1 h2
  exact decide_eq_true (le_trans (of_decide_eq_true h1) (of_decide_eq_true h2))

theorem groupKeys_sorted (keys : List String) :
    (groupKeys keys).Pairwise (fun a b => a ≤ b) :=
  (pairwise_sortLe strLe strLe_total strLe_trans (dedupKeepFirst keys)).imp
    (fun h => of_decide_eq_true h)

theorem mem_groupKeys (keys : List String) (a : String) :
    a ∈ groupKeys keys ↔ a ∈ keys := by
  unfold groupKeys
  rw [mem_sortLe, mem_dedupKeepFirst]

theorem firstArgmax_eq_none {β : Type} [LinearOrder β] :
    ∀ l : List (String × β), firstArgmax l = none ↔ l = []
  | [] => by simp [firstArgmax]
  | x :: xs => by
    constructor
    · intro h
      exfalso
      cases hrec : firstArgmax xs with
      | none =>
        simp only [firstArgmax, hrec] at h
        exact absurd h (by simp)
      | some b =>
        simp only [firstArgmax, hrec] at h
        by_cases hb : x.2 < b.2
        · rw [if_pos hb] at h
          exact absurd h (by simp)
        · rw [if_neg hb] at h
          exact absurd h (by simp)
    · intro h
      simp at h

theorem firstArgmax_spec {β : Type} [LinearOrder β] :
    ∀ l : List (String × β), (l.map Prod.fst).Pairwise (fun a b => a ≤ b) →
      ∀ m, firstArgmax l = some m →
        m ∈ l ∧ ∀ y ∈ l, y.2 ≤ m.2 ∧ (y.2 = m.2 → m.1 ≤ y.1)
  | [], _, m, hm => by simp [firstArgmax] at hm
  | x :: xs, hp, m, hm => by
    rw [List.map_cons, List.pairwise_cons] at hp
    obtain ⟨hx, hxs⟩ := hp
    cases hrec : firstArgmax xs with
    | none =>
      simp only [firstArgmax, hrec, Option.some.injEq] at hm
      subst hm
      have hxs0 : xs = [] := (firstArgmax_eq_none xs).1 hrec
      subst hxs0
      refine ⟨List.mem_singleton.2 rfl, ?_⟩
      intro y hy
      obtain rfl := List.mem_singleton.1 hy
      exact ⟨le_refl _, fun _ => le_refl _⟩
    | some b =>
      have IH := firstArgmax_spec xs hxs b hrec
      simp only [firstArgmax, hrec] at hm
      by_cases hlt : x.2 < b.2
      · rw [if_pos hlt] at hm
        simp only [Option.some.injEq] at hm
        subst hm
        refine ⟨List.mem_cons_of_mem x IH.1, ?_⟩
        intro y hy
        rcases List.mem_cons.1 hy with rfl | hy2
        · exact ⟨le_of_lt hlt, fun h => absurd h (ne_of_lt hlt)⟩
        · exact IH.2 y hy2
      · rw [if_neg hlt] at hm
        simp only [Option.some.injEq] at hm
        subst hm
        refine ⟨List.mem_cons_self x xs, ?_⟩
        intro y hy
        rcases List.mem_cons.1 hy with rfl | hy2
        · exact ⟨le_refl _, fun _ => le_refl _⟩
        · refine ⟨le_trans (IH.2 y hy2).1 (not_lt.1 hlt), fun _ => ?_⟩
          exact hx y.1 (List.mem_map_of_mem Prod.fst hy2)

theorem groupEntry_fst (df : List CleanRow) (key : CleanRow → String)
    (val : CleanRow → Option Rat) (k : String) : (groupEntry df key val k).1 = k := rfl

theorem groupEntry_snd (df : List CleanRow) (key : CleanRow → String)
    (val : CleanRow → Option Rat) (k : String) :
    (groupEntry df key val k).2 = ((df.filter (fun r => key r = k)).filterMap val).sum := rfl

theorem groupedSum_fst (df : List CleanRow) (key : CleanRow → String)
    (val : CleanRow → Option Rat) :
    (groupedSum df key val).map Prod.fst = groupKeys (df.map key) := by
  unfold groupedSum
  rw [List.map_map]
  have h : Prod.fst ∘ groupEntry df key val = id := rfl
  rw [h, List.map_id]

theorem idxmaxBy_spec (df : List CleanRow) (key : CleanRow → String)
    (val : CleanRow → Option Rat) (p : String) (h : idxmaxBy df key val = some p) :
    p ∈ df.map key ∧
    ∀ q ∈ df.map key,
      ((df.filter (fun r => key r = q)).filterMap val).sum ≤
        ((df.filter (fun r => key r = p)).filterMap val).sum ∧
      (((df.filter (fun r => key r = q)).filterMap val).sum =
        ((df.filter (fun r => key r = p)).filterMap val).sum → p ≤ q) := by
  unfold idxmaxBy at h
  cases hfa : firstArgmax (groupedSum df key val) with
  | none =>
    rw [hfa] at h
    simp at h
  | some m =>
    rw [hfa] at h
    simp only [Option.map_some', Option.some.injEq] at h
    have hsorted : ((groupedSum df key val).map Prod.fst).Pairwise (fun a b => a ≤ b) := by
      rw [groupedSum_fst]
      exact groupKeys_sorted _
    have spec := firstArgmax_spec (groupedSum df key val) hsorted m hfa
    obtain ⟨k, hk, hkm⟩ := List.mem_map.1 spec.1
    have hp : k = p := by
      rw [← h, ← hkm]
      rfl
    subst hp
    constructor
    · exact (mem_groupKeys _ _).1 hk
    · intro q hq
      have hq2 : q ∈ groupKeys (df.map key) := (mem_groupKeys _ _).2 hq
      have hqpair : groupEntry df key val q ∈ groupedSum df key val :=
        List.mem_map_of_mem _ hq2
      have hspecq := spec.2 _ hqpair
      rw [← hkm] at hspecq
      rw [groupEntry_snd, groupEntry_snd, groupEntry_fst, groupEntry_fst] at hspecq
      exact hspecq

theorem filterMap_some_val {α : Type} (f : α → Rat) (l : List α) :
    l.filterMap (fun r => some (f r)) = l.map f := by
  induction l with
  | nil => rfl
  | cons a l ih => simp [List.filterMap_cons, ih]

/-- C9: the three `idxmax`-based global statistics are deterministic:
each returns a key attaining the maximal grouped sum, and on ties the
lexicographically smallest such key (pandas groupby sorts the group keys
ascending and `idxmax` returns the first index attaining the maximum). -/
theorem summary_stats_tie_break :
    (∀ df p, most_popular_product df = some p →
      p ∈ df.map (fun r => r.product_name) ∧
      ∀ q ∈ df.map (fun r => r.product_name),
        ((df.filter (fun r => r.product_name = q)).map (fun r => (r.quantity : Rat))).sum ≤
          ((df.filter (fun r => r.product_name = p)).map (fun r => (r.quantity : Rat))).sum ∧
        (((df.filter (fun r => r.product_name = q)).map (fun r => (r.quantity : Rat))).sum =
          ((df.filter (fun r => r.product_name = p)).map (fun r => (r.quantity : Rat))).sum →
          p ≤ q)) ∧
    (∀ df p, most_popular_category df = some p →
      p ∈ df.map (fun r => r.category) ∧
      ∀ q ∈ df.map (fun r => r.category),
        ((df.filter (fun r => r.category = q)).map (fun r => (r.quantity : Rat))).sum ≤
          ((df.filter (fun r => r.category = p)).map (fun r => (r.quantity : Rat))).sum ∧
        (((df.filter (fun r => r.category = q)).map (fun r => (r.quantity : Rat))).sum =
          ((df.filter (fun r => r.category = p)).map (fun r => (r.quantity : Rat))).sum →
          p ≤ q)) ∧
    (∀ df p, top_region df = some p →
      p ∈ df.map (fun r => r.region) ∧
      ∀ q ∈ df.map (fun r => r.region),
        ((df.filter (fun r => r.region = q)).filterMap (fun r => r.total_amount)).sum ≤
          ((df.filter (fun r => r.region = p)).filterMap (fun r => r.total_amount)).sum ∧
        (((df.filter (fun r => r.region = q)).filterMap (fun r => r.total_amount)).sum =
          ((df.filter (fun r => r.region = p)).filterMap (fun r => r.total_amount)).sum →
          p ≤ q)) := by
  refine ⟨?_, ?_, ?_⟩
  · intro df p h
    have hs := idxmaxBy_spec df (fun r => r.product_name)
      (fun r => some ((r.quantity : Rat))) p h
    simpa only [filterMap_some_val] using hs
  · intro df p h
    have hs := idxmaxBy_spec df (fun r => r.category)
      (fun r => some ((r.quantity : Rat))) p h
    simpa only [filterMap_some_val] using hs
  · intro df p h
    exact idxmaxBy_spec df (fun r => r.region) (fun r => r.total_amount) p h

/-- Tie row: product "Beta", quantity 3. -/
def rowTieBeta : CleanRow :=
  { order_id := "S1", product_name := "Beta", category := "Gear",
    quantity := 3, unit_price := some 2, total_amount := some 6,
    customer_id := "K1", order_date := ⟨2024, 9, 1⟩, region := "North",
    month := 9, year := 2024 }

/-- Tie row: product "Alpha", quantity 3, appearing second. -/
def rowTieAlpha : CleanRow :=
  { order_id := "S2", product_name := "Alpha", category := "Apparel",
    quantity := 3, unit_price := some 4, total_amount := some 12,
    customer_id := "K2", order_date := ⟨2024, 9, 2⟩, region := "South",
    month := 9, year := 2024 }

theorem tie_keys_eval :
    groupKeys ([rowTieBeta, rowTieAlpha].map (fun r => r.product_name)) = ["Alpha", "Beta"] := by
  simp [groupKeys, dedupKeepFirst, sortLe, insertLe, strLe, String.le_iff_toList_le,
    rowTieBeta, rowTieAlpha]
  decide

theorem tie_groupedSum_eval :
    groupedSum [rowTieBeta, rowTieAlpha] (fun r => r.product_name)
      (fun r => some ((r.quantity : Rat))) = [("Alpha", 3), ("Beta", 3)] := by
  rw [groupedSum, tie_keys_eval]
  norm_num +decide [groupEntry, rowTieBeta, rowTieAlpha, List.filter_cons,
    List.filterMap_cons, List.sum_cons, List.sum_nil]

theorem most_popular_product_tie_eval :
    most_popular_product [rowTieBeta, rowTieAlpha] = some "Alpha" := by
  rw [most_popular_product, idxmaxBy, tie_groupedSum_eval]
  norm_num [firstArgmax]

/-- Witness for C9: the tied products "Beta" and "Alpha" (summed
quantity 3 each) resolve to the lexicographically smaller "Alpha". -/
theorem summary_stats_tie_break_witness :
    ("Alpha" : String) ∈ [rowTieBeta, rowTieAlpha].map (fun r => r.product_name) :=
  (summary_stats_tie_break.1 [rowTieBeta, rowTieAlpha] "Alpha"
    most_popular_product_tie_eval).1
